import Mathlib

/-!
Shallow embedding of the request-execution core of the bcc-go client
library (src/bcc/manager.go, src/bcc/errors.go).  HTTP exchanges, JSON
parsing and file writes are abstracted as oracles supplied to each model
function; the control flow of the Go source is transcribed branch by
branch.  Wall-clock time is measured in milliseconds and advances only at
the two sleep points of the source (the lock-retry sleep in Manager.do and
the task-poll sleep in Manager.WaitTask), matching the source, where
elapsed time is dominated by those sleeps.  Loops that the source writes
as unbounded for-loops take an explicit fuel argument; running out of fuel
is reported as a distinct outcome, never conflated with returning.
-/

namespace Bcc

/-- Timing constants from manager.go lines 26-28: RetryTime is in
milliseconds, LockTimeout and TaskTimeout in seconds. -/
def RetryTime : Nat := 500

/-- Lock wait ceiling in seconds (manager.go line 27). -/
def LockTimeout : Nat := 1200

/-- Task wait ceiling in seconds (manager.go line 28). -/
def TaskTimeout : Nat := 600

/-- Errors returned by the core, one constructor per distinct error
construction site in manager.go / errors.go.  Message formatting is
abstracted to the data the message interpolates. -/
inductive Err where
  | transport (url msg : String)
  | readBody (url : String)
  | business (data details : String)
  | lockTimeout
  | apiError (url : String) (status : Int) (body : String) (aliases : List String)
  | decode (url msg : String)
  | configExport (url : String)
  | marshal (msg : String)
  | invalidRequest (url : String)
  | taskError (step : String)
  | taskTimeout
  | cancelled (msg : String)
deriving DecidableEq

/-- Model of a context.Context: `cancelAt` is the absolute time (ms) at
which its Done channel closes (none = never), `errMsg` the error text
that ctx.Err() reports once cancelled. -/
structure Ctx where
  cancelAt : Option Nat
  errMsg : String
deriving DecidableEq

/-- Model of SleepWithContext (manager.go lines 532-544): waits for the
timer or the context, whichever is first, at current time `t` for `dur`
milliseconds.  Returns the new current time and the context error, if
cancellation won the select.  A tie (cancellation exactly when the timer
fires) is resolved in favour of the timer, a deterministic refinement of
the racy select. -/
def SleepWithContext (ctx : Ctx) (t dur : Nat) : Nat × Option Err :=
  match ctx.cancelAt with
  | none => (t + dur, none)
  | some c =>
      if c < t + dur then (max c t, some (.cancelled ctx.errMsg))
      else (t + dur, none)

/-- Model of Manager.sleep (manager.go lines 317-325): delegates to
SleepWithContext when the manager's ctx is non-nil, otherwise plain
time.Sleep. -/
def sleep (ctx : Option Ctx) (t dur : Nat) : Nat × Option Err :=
  match ctx with
  | some c => SleepWithContext c t dur
  | none => (t + dur, none)

/-- Model of the Manager struct (manager.go lines 31-39).  The http.Client
and logger are opaque; a numeric handle stands for their identity. -/
structure Manager where
  Client : Nat
  ClientID : String
  Logger : Option Nat
  BaseURL : String
  Token : String
  UserAgent : String
  ctx : Option Ctx
deriving DecidableEq

/-- Model of Manager.WithContext (manager.go lines 124-128): copy the
struct, set the ctx field, return the copy. -/
def WithContext (m : Manager) (ctx : Option Ctx) : Manager :=
  { m with ctx := ctx }

/-- A Go map[string]string is modelled as an association list whose keys
are unique (Go maps cannot hold duplicate keys); iteration order is the
list order. -/
abbrev Arguments := List (String × String)

/-- Reading args[k]: the binding for k, if any. -/
def getArg : Arguments → String → Option String
  | [], _ => none
  | (k', v) :: rest, k => if k' = k then some v else getArg rest k

/-- Map assignment args[k] = v: replace the existing binding or append. -/
def setArg : Arguments → String → String → Arguments
  | [], k, v => [(k, v)]
  | (k', v') :: rest, k, v =>
      if k' = k then (k, v) :: rest else (k', v') :: setArg rest k v

/-- Inner loop of Arguments.merge (manager.go lines 501-503): assign every
binding of one extra set into args. -/
def mergeOne (args : Arguments) (extra : Arguments) : Arguments :=
  extra.foldl (fun acc kv => setArg acc kv.1 kv.2) args

/-- Model of Arguments.merge (manager.go lines 499-505): fold the extra
sets left to right, later sets overriding earlier ones. -/
def merge (args : Arguments) (extraArgs : List Arguments) : Arguments :=
  extraArgs.foldl mergeOne args

/-- Last `some` produced by g along the list, if any (observation helper
used to phrase right-biased-merge statements). -/
def keepLast {β σ : Type} (g : β → Option σ) (l : List β) : Option σ :=
  l.foldl (fun r x => (g x).elim r some) none

/-- Value of the last binding of k inside one set, if any. -/
def lastVal (b : Arguments) (k : String) : Option String :=
  keepLast (fun kv => if kv.1 = k then some kv.2 else none) b

/-- Value of k in the last override set that contains k, if any. -/
def lastOverride (bs : List Arguments) (k : String) : Option String :=
  keepLast (fun b => getArg b k) bs

/-- Model of the ObjectLocked struct (manager.go lines 41-45) as held in
the local variable locked_object of Manager.do.  Each Go slice field is
`none` when the slice is nil and `some xs` when non-nil (possibly empty);
elements are abstracted to their fmt stringification. -/
structure ObjectLocked where
  Details : Option (List String)
  ErrorAlias : Option (List String)
  NonFieldErrors : Option (List String)
deriving DecidableEq

/-- Effect of json.Unmarshal on one slice-typed field: an absent JSON key
leaves the previous value, JSON null sets the slice to nil, a JSON array
sets it to the (possibly empty) decoded slice. -/
inductive FieldPatch where
  | absent
  | null
  | val (xs : List String)
deriving DecidableEq

/-- Parsed form of one 409 response body with respect to the three
ObjectLocked fields. -/
structure LockedPatch where
  details : FieldPatch
  error_alias : FieldPatch
  non_field_errors : FieldPatch
deriving DecidableEq

/-- Application of one field patch. -/
def FieldPatch.apply : FieldPatch → Option (List String) → Option (List String)
  | .absent, old => old
  | .null, _ => none
  | .val xs, _ => some xs

/-- json.Unmarshal of a 409 body into the existing locked_object value
(manager.go line 349): field-wise merge semantics. -/
def applyPatch (p : LockedPatch) (lo : ObjectLocked) : ObjectLocked :=
  ⟨p.details.apply lo.Details, p.error_alias.apply lo.ErrorAlias,
    p.non_field_errors.apply lo.NonFieldErrors⟩

/-- Abstraction of json.Marshal(locked_object.Details) (manager.go line
357): a nil slice marshals to null, otherwise to the joined elements. -/
def marshalDetails : Option (List String) → String
  | none => "null"
  | some xs => String.intercalate "," xs

/-- Shape of the decode destination handed to Manager.do.  The source
passes either nil, a pointer, or (in Manager.WaitTask, line 286) a struct
by value; json.Unmarshal returns an InvalidUnmarshalError for any
destination that is not a non-nil pointer. -/
inductive TargetKind where
  | noTarget
  | valueTarget
  | ptrTarget
deriving DecidableEq

/-- Outcome of one transport attempt (one m.Client.Do call): a transport
error, or a response with status, raw body, X-Esu-Tasks header value, and
whether reading the body fails. -/
inductive AttemptR where
  | transportErr (msg : String)
  | hresp (status : Int) (body : String) (taskIds : String) (readFails : Bool)
deriving DecidableEq

/-- Inputs of one Manager.do call: the request URL, the transport oracle
(attempt number to outcome), the JSON/YAML parsing oracles, the decode
destination kind, whether the URL contains the substring "config"
(manager.go line 411), and the manager's context.  `parse409` returns
none when the 409 body does not unmarshal; `decTarget` returns some
message when the success body does not decode into the target element
type; `configWrite` returns some message when the credential-file export
fails. -/
structure DoIn where
  url : String
  attempts : Nat → AttemptR
  parse409 : String → Option LockedPatch
  parseAliases : String → List String
  decTarget : String → Option String
  configWrite : String → Option String
  target : TargetKind
  urlHasConfig : Bool
  ctx : Option Ctx

/-- Result of Manager.do: the returned task-id string and error plus the
final wall-clock time, or a runtime panic, or fuel exhaustion (the source
loop still running). -/
inductive DoResult where
  | ret (taskIds : String) (err : Option Err) (tEnd : Nat)
  | panicked (tEnd : Nat)
  | fuelOut
deriving DecidableEq

/-- Post-loop tail of Manager.do (manager.go lines 383-424): status-range
check, body read, empty-body and nil-target early returns, credential
export or JSON decode into the target. -/
def doFinish (I : DoIn) (status : Int) (body taskIds : String)
    (readFails : Bool) (t : Nat) : DoResult :=
  if status < 200 ∨ status > 299 then
    .ret "" (some (.apiError I.url status body (I.parseAliases body))) t
  else if readFails then
    .ret "" (some (.readBody I.url)) t
  else if body = "" then
    .ret taskIds none t
  else
    match I.target with
    | .noTarget => .ret taskIds none t
    | k =>
        if I.urlHasConfig then
          match I.configWrite body with
          | some _ => .ret "" (some (.configExport I.url)) t
          | none => .ret taskIds none t
        else
          match k with
          | .valueTarget => .ret "" (some (.decode I.url "json: Unmarshal(non-pointer)")) t
          | _ =>
              match I.decTarget body with
              | some msg => .ret "" (some (.decode I.url msg)) t
              | none => .ret taskIds none t

/-- The retry loop of Manager.do (manager.go lines 335-381), threading the
attempt number, current time, and the locked_object variable.  On a 409:
read and unmarshal the body (the read error at line 348 is discarded by
the source, so readFails is not consulted here); if the ErrorAlias slice
is non-nil, index element 0 of ErrorAlias and of NonFieldErrors (panicking
on an empty or nil slice exactly where the Go code would), and fail with
the business error when the alias is not "object_locked"; otherwise sleep
the retry interval under the context and fail with a lock timeout once
elapsed time exceeds the ceiling.  Any non-409 response leaves the loop
into doFinish. -/
def doLoop (I : DoIn) (t0 : Nat) : Nat → Nat → ObjectLocked → Nat → DoResult
  | _, _, _, 0 => .fuelOut
  | attempt, t, lo, fuel + 1 =>
    match I.attempts attempt with
    | .transportErr msg => .ret "" (some (.transport I.url msg)) t
    | .hresp status body taskIds readFails =>
      if status = 409 then
        match I.parse409 body with
        | none => .ret "" (some (.readBody I.url)) t
        | some p =>
          let lo' := applyPatch p lo
          let early : Option DoResult :=
            match lo'.ErrorAlias with
            | none => none
            | some [] => some (.panicked t)
            | some (a :: _) =>
                let details := marshalDetails lo'.Details
                match lo'.NonFieldErrors with
                | none => some (.panicked t)
                | some [] => some (.panicked t)
                | some (d :: _) =>
                    if a ≠ "object_locked" then
                      some (.ret "" (some (.business d details)) t)
                    else none
          match early with
          | some r => r
          | none =>
            match sleep I.ctx t RetryTime with
            | (t', some e) => .ret "" (some e) t'
            | (t', none) =>
                if t' - t0 > LockTimeout * 1000 then
                  .ret "" (some .lockTimeout) t'
                else doLoop I t0 (attempt + 1) t' lo' fuel
      else doFinish I status body taskIds readFails t

/-- Model of Manager.do (manager.go lines 328-425): start the loop at
attempt 0, at the entry time, with the zero-valued locked_object. -/
def doReq (I : DoIn) (t0 fuel : Nat) : DoResult :=
  doLoop I t0 0 t0 ⟨none, none, none⟩ fuel

/-- Model of Manager.Get (manager.go lines 158-177): builds the request
and delegates to Manager.do with a nil request body. -/
def Get (I : DoIn) (t0 fuel : Nat) : DoResult :=
  doReq I t0 fuel

/-- The Task struct (manager.go lines 47-50). -/
structure Task where
  Status : String
  Name : String
deriving DecidableEq

/-- Inputs of one Manager.WaitTask call: per poll-iteration a transport
oracle for the inner Get, the shared parse oracles, whether the job URL
contains "config", and the manager's context. -/
structure WaitIn where
  url : String
  polls : Nat → Nat → AttemptR
  parse409 : String → Option LockedPatch
  parseAliases : String → List String
  urlHasConfig : Bool
  ctx : Option Ctx

/-- The DoIn of the i-th poll's Get: the target is the local `task`
variable passed BY VALUE (manager.go line 286 passes `task`, not
`&task`), so the destination kind is valueTarget. -/
def waitTaskDoIn (W : WaitIn) (i : Nat) : DoIn :=
  { url := W.url, attempts := W.polls i, parse409 := W.parse409,
    parseAliases := W.parseAliases, decTarget := fun _ => none,
    configWrite := fun _ => none, target := .valueTarget,
    urlHasConfig := W.urlHasConfig, ctx := W.ctx }

/-- Result of WaitTask / waitTasks / Request / Delete: an error (none =
returned nil) plus final time, a panic, or fuel exhaustion. -/
inductive CallResult where
  | ret (err : Option Err) (tEnd : Nat)
  | panicked (tEnd : Nat)
  | fuelOut
deriving DecidableEq

/-- The loop of Manager.WaitTask (manager.go lines 285-304).  `task` is
the local Task variable: since Get receives it by value, json.Unmarshal
rejects the non-pointer destination and the variable is never written, so
it is threaded unchanged.  A Get error breaks out of the loop, after
which the source returns nil (lines 287-289 and 308). -/
def waitTaskLoop (W : WaitIn) (t0 dofuel : Nat) : Nat → Task → Nat → Nat → CallResult
  | _, _, _, 0 => .fuelOut
  | i, task, t, fuel + 1 =>
    match Get (waitTaskDoIn W i) t dofuel with
    | .panicked t' => .panicked t'
    | .fuelOut => .fuelOut
    | .ret _ err t' =>
      match err with
      | some _ => .ret none t'
      | none =>
          if task.Status = "error" then .ret (some (.taskError task.Name)) t'
          else
            match sleep W.ctx t' RetryTime with
            | (t'', some e) => .ret (some e) t''
            | (t'', none) =>
                if t'' - t0 > TaskTimeout * 1000 then .ret (some .taskTimeout) t''
                else waitTaskLoop W t0 dofuel (i + 1) task t'' fuel

/-- Model of Manager.WaitTask (manager.go lines 278-309): the task
variable starts as the zero value. -/
def WaitTask (W : WaitIn) (t0 dofuel fuel : Nat) : CallResult :=
  waitTaskLoop W t0 dofuel 0 (Task.mk "" "") t0 fuel

/-- Whitespace recognizer for the strings.TrimSpace model. -/
def isSpaceChar (c : Char) : Bool :=
  c == ' ' || c == '\t' || c == '\n' || c == '\r'

/-- strings.TrimSpace on the character list of an id. -/
def trimChars (cs : List Char) : List Char :=
  ((cs.dropWhile isSpaceChar).reverse.dropWhile isSpaceChar).reverse

/-- strings.Split on commas, at the character level: splitting an empty
string yields one empty field, as in Go. -/
def splitComma : List Char → List (List Char)
  | [] => [[]]
  | c :: rest =>
    if c = ',' then [] :: splitComma rest
    else
      match splitComma rest with
      | [] => [[c]]
      | h :: tl => (c :: h) :: tl

/-- Splitting the X-Esu-Tasks header value: comma-split, trim whitespace,
skip empties (manager.go lines 452-456). -/
def splitTaskIds (s : String) : List String :=
  (((splitComma s.toList).map (fun cs => String.mk (trimChars cs))).filter
    (fun x => x ≠ ""))

/-- Sequential waiting of Manager.waitTasks (manager.go lines 451-464),
short-circuiting on the first failing task. -/
def waitTasksLoop (mkW : String → WaitIn) (dofuel wfuel : Nat) :
    List String → Nat → CallResult
  | [], t => .ret none t
  | id :: rest, t =>
    match WaitTask (mkW id) t dofuel wfuel with
    | .ret none t' => waitTasksLoop mkW dofuel wfuel rest t'
    | .ret (some e) t' => .ret (some e) t'
    | .panicked t' => .panicked t'
    | .fuelOut => .fuelOut

/-- Model of Manager.waitTasks: `mkW` supplies the poll oracle for each
task id. -/
def waitTasks (mkW : String → WaitIn) (taskIds : String) (t dofuel wfuel : Nat) :
    CallResult :=
  waitTasksLoop mkW dofuel wfuel (splitTaskIds taskIds) t

/-- Model of Manager.Request (manager.go lines 130-156): marshal the args
(oracle), build the request, run Manager.do, hand the returned task ids
to waitTasks WITHOUT consuming its error (line 153 discards the result of
m.waitTasks), and return the error from Manager.do. -/
def Request (marshalArgs : Except String String) (newReqFails : Bool)
    (I : DoIn) (mkW : String → WaitIn) (t0 dofuel wdofuel wfuel : Nat) : CallResult :=
  match marshalArgs with
  | .error msg => .ret (some (.marshal msg)) t0
  | .ok _ =>
    if newReqFails then .ret (some (.invalidRequest I.url)) t0
    else
      match doReq I t0 dofuel with
      | .panicked t => .panicked t
      | .fuelOut => .fuelOut
      | .ret taskIds err t =>
        match waitTasks mkW taskIds t wdofuel wfuel with
        | .panicked t' => .panicked t'
        | .fuelOut => .fuelOut
        | .ret _ t' => .ret err t'

/-- Model of Manager.Delete (manager.go lines 260-276): like Request but
with no body to marshal; line 273 likewise discards the result of
m.waitTasks and line 275 returns the error from Manager.do. -/
def Delete (newReqFails : Bool) (I : DoIn) (mkW : String → WaitIn)
    (t0 dofuel wdofuel wfuel : Nat) : CallResult :=
  if newReqFails then .ret (some (.invalidRequest I.url)) t0
  else
    match doReq I t0 dofuel with
    | .panicked t => .panicked t
    | .fuelOut => .fuelOut
    | .ret taskIds err t =>
      match waitTasks mkW taskIds t wdofuel wfuel with
      | .panicked t' => .panicked t'
      | .fuelOut => .fuelOut
      | .ret _ t' => .ret err t'

/-- Result of unmarshalling one page's raw item bytes against the
destination element type. -/
inductive ItemsResult (α : Type) where
  | ok (xs : List α)
  | decodeErr (msg : String)
deriving DecidableEq

/-- What the page-p GET (one m.do call plus envelope decode, manager.go
lines 208-219) yields: an error from Manager.do, or the decoded envelope
with total, limit and the item-decode outcome. -/
inductive PageFetch (α : Type) where
  | derr (e : Err)
  | page (total limit : Int) (items : ItemsResult α)
deriving DecidableEq

/-- Result of Manager.GetItems: the final contents of the destination
slice plus the returned error, a reflect.MakeSlice panic (negative
capacity), or fuel exhaustion. -/
inductive GetItemsResult (α : Type) where
  | ret (target : List α) (err : Option Err)
  | panicked
  | fuelOut
deriving DecidableEq

/-- The capacity computed for one page's fresh buffer (manager.go line
220). -/
def currentPageSize (total limit : Int) (page : Nat) : Int :=
  min (total - limit * ((page : Int) - 1)) limit

/-- The pagination loop of Manager.GetItems (manager.go lines 190-233).
On a Manager.do error the source breaks out of the loop and then returns
nil (lines 217-218 and 234), leaving the accumulated elements in the
destination.  On an item-decode error it returns the wrapped decode error
(line 226) with the destination still holding the earlier pages.  On
success it appends the page and stops exactly when the accumulated length
equals the declared total (line 229).  The entry checks of lines 180-186
(destination must be a slice) and the NewRequest error path of lines
199-202 concern malformed caller input and are outside this model. -/
def getItemsLoop {α : Type} (server : Nat → PageFetch α) (path : String) :
    Nat → List α → Nat → GetItemsResult α
  | _, _, 0 => .fuelOut
  | page, acc, fuel + 1 =>
    match server page with
    | .derr _ => .ret acc none
    | .page total limit items =>
      if currentPageSize total limit page < 0 then .panicked
      else
        match items with
        | .decodeErr msg => .ret acc (some (.decode path msg))
        | .ok xs =>
          let acc' := acc ++ xs
          if (acc'.length : Int) = total then .ret acc' none
          else getItemsLoop server path (page + 1) acc' fuel

/-- Model of Manager.GetItems (manager.go lines 179-235): pages are
1-based and the destination starts as the caller's (empty) slice. -/
def GetItems {α : Type} (server : Nat → PageFetch α) (path : String)
    (fuel : Nat) : GetItemsResult α :=
  getItemsLoop server path 1 [] fuel

/-- A transport attempt is a well-formed "object locked" 409: its body
unmarshals to a patch that sets error_alias to a list headed by
"object_locked" and non_field_errors to a non-empty list. -/
def lockedAt (I : DoIn) (i : Nat) : Prop :=
  ∃ body tids rf p arest d drest,
    I.attempts i = .hresp 409 body tids rf ∧
    I.parse409 body = some p ∧
    p.error_alias = .val ("object_locked" :: arest) ∧
    p.non_field_errors = .val (d :: drest)

/-- The zero value of the locked_object variable. -/
def loZero : ObjectLocked := ⟨none, none, none⟩

/-- A DoIn with the standard parse oracles and no target, for concrete
evaluations. -/
def mkDoIn (url : String) (attempts : Nat → AttemptR)
    (parse409 : String → Option LockedPatch) (ctx : Option Ctx) : DoIn :=
  { url := url, attempts := attempts, parse409 := parse409,
    parseAliases := fun _ => [], decTarget := fun _ => none,
    configWrite := fun _ => none, target := .noTarget,
    urlHasConfig := false, ctx := ctx }

/-- Parse oracle fixing the meaning of a handful of concrete 409 bodies:
a well-formed lock body, a real-conflict body, and the malformed bodies
with empty or missing index-0 lists. -/
def parseStd : String → Option LockedPatch := fun b =>
  if b = "lockedbody" then
    some ⟨.val ["lock info"], .val ["object_locked"], .val ["resource is locked"]⟩
  else if b = "conflictbody" then
    some ⟨.val ["d1"], .val ["quota_exceeded"], .val ["limit reached"]⟩
  else if b = "conflictnofield" then
    some ⟨.absent, .val ["quota_exceeded"], .val []⟩
  else if b = "emptyaliasbody" then
    some ⟨.absent, .val [], .absent⟩
  else if b = "nofieldbody" then
    some ⟨.absent, .val ["object_locked"], .val []⟩
  else none

/-- A context that is cancelled 100 ms after time zero. -/
def ctx100 : Ctx := ⟨some 100, "context canceled"⟩

/-- Server answering 409 with a non-"object_locked" alias and a non-empty
non_field_errors list. -/
def doIn6bus : DoIn :=
  mkDoIn "v1/vm/1" (fun _ => .hresp 409 "conflictbody" "" false) parseStd none

/-- Server answering two well-formed locked 409s, then success carrying a
task id. -/
def doIn6lock : DoIn :=
  mkDoIn "v1/vm/1"
    (fun i => if i < 2 then .hresp 409 "lockedbody" "" false
              else .hresp 200 "" "tid7" false)
    parseStd none

/-- Server answering a well-formed locked 409 on every attempt. -/
def doIn6always : DoIn :=
  mkDoIn "v1/vm/1" (fun _ => .hresp 409 "lockedbody" "" false) parseStd none

/-- Server answering 409 with a non-"object_locked" alias but an EMPTY
non_field_errors list. -/
def doIn6cex : DoIn :=
  mkDoIn "v1/vm/1" (fun _ => .hresp 409 "conflictnofield" "" false) parseStd none

/-- Server answering 409 whose body carries an empty (non-nil)
error_alias list. -/
def doInC10a : DoIn :=
  mkDoIn "v1/disk/9" (fun _ => .hresp 409 "emptyaliasbody" "" false) parseStd none

/-- Server answering 409 whose body carries a non-empty error_alias list
but an empty non_field_errors list. -/
def doInC10b : DoIn :=
  mkDoIn "v1/disk/9" (fun _ => .hresp 409 "nofieldbody" "" false) parseStd none

/-- Always-locked server under the cancelled-at-100ms context. -/
def doIn8 : DoIn :=
  mkDoIn "v1/vm/2" (fun _ => .hresp 409 "lockedbody" "" false) parseStd (some ctx100)

/-- Job polls that always answer 200 with an empty body, under the
cancelled-at-100ms context. -/
def waitIn8 : WaitIn :=
  ⟨"v1/job/7", fun _ _ => .hresp 200 "" "" false, parseStd, fun _ => [],
    false, some ctx100⟩

/-- Main exchange for the Request/Delete evaluation: immediate success
with an empty body and task id header "42", manager context cancelled at
100 ms. -/
def doIn3 : DoIn :=
  mkDoIn "v1/network" (fun _ => .hresp 200 "" "42" false) parseStd (some ctx100)

/-- Poll oracle for the tasks of doIn3: every poll answers 200 with an
empty body, so the task wait can only end by timeout or cancellation. -/
def mkW3 : String → WaitIn := fun id =>
  ⟨"v1/job/" ++ id, fun _ _ => .hresp 200 "" "" false, parseStd, fun _ => [],
    false, some ctx100⟩

/-- Job polls answering 200 with a non-empty job body (a job record in
status "error" with name "provision"); context never cancelled. -/
def waitIn4 : WaitIn :=
  ⟨"v1/job/42", fun _ _ => .hresp 200 "jobstatuserror" "" false, parseStd,
    fun _ => [], false, none⟩

/-- First page of the synthetic 25-element listing. -/
def pageItems1 : List Nat := [1, 2, 3, 4, 5, 6, 7, 8, 9, 10]

/-- Second page of the synthetic 25-element listing. -/
def pageItems2 : List Nat := [11, 12, 13, 14, 15, 16, 17, 18, 19, 20]

/-- Third page of the synthetic 25-element listing. -/
def pageItems3 : List Nat := [21, 22, 23, 24, 25]

/-- Well-behaved paging server: total 25, limit 10, three pages. -/
def server25 : Nat → PageFetch Nat := fun p =>
  if p = 1 then .page 25 10 (.ok pageItems1)
  else if p = 2 then .page 25 10 (.ok pageItems2)
  else .page 25 10 (.ok pageItems3)

/-- Paging server whose second page GET fails in Manager.do. -/
def serverC1 : Nat → PageFetch Nat := fun p =>
  if p = 1 then .page 25 10 (.ok pageItems1)
  else .derr (.transport "v1/vm" "connection refused")

/-- Paging server whose second page's item payload fails to decode. -/
def serverC2 : Nat → PageFetch Nat := fun p =>
  if p = 1 then .page 25 10 (.ok pageItems1)
  else .page 25 10 (.decodeErr "bad json")

/-- Base argument set of the merge witness. -/
def argA : Arguments := [("a", "1"), ("b", "2")]

/-- First override set of the merge witness. -/
def argB1 : Arguments := [("b", "3")]

/-- Second override set of the merge witness. -/
def argB2 : Arguments := [("b", "4"), ("c", "5")]

/-- Claim C9: WithContext returns a manager whose ctx is the given
context and whose every other field (client, client id, logger, base URL,
token, user agent) equals the original's; the original, being a struct
copy, is untouched. -/
theorem withContext_frame (m : Manager) (c : Option Ctx) :
    (WithContext m c).ctx = c ∧
    (WithContext m c).Client = m.Client ∧
    (WithContext m c).ClientID = m.ClientID ∧
    (WithContext m c).Logger = m.Logger ∧
    (WithContext m c).BaseURL = m.BaseURL ∧
    (WithContext m c).Token = m.Token ∧
    (WithContext m c).UserAgent = m.UserAgent :=
  ⟨rfl, rfl, rfl, rfl, rfl, rfl, rfl⟩

/-- Claim C1, evaluation at the failing input: when the page-2 GET fails
in Manager.do, GetItems stops and returns nil with the page-1 elements
left in the destination — the executor's error is swallowed, not
returned. -/
theorem getItems_swallows_page_error :
    serverC1 2 = .derr (.transport "v1/vm" "connection refused") ∧
    GetItems serverC1 "v1/vm" 5 = .ret pageItems1 none := by
  decide

/-- Claim C2, counterexample: when page 2 fails to decode, GetItems does
return a decode error, but the destination still holds the ten elements
accumulated from page 1 — they are not discarded. -/
theorem getItems_partial_left_in_destination :
    GetItems serverC2 "v1/disk" 5 =
      .ret pageItems1 (some (.decode "v1/disk" "bad json")) ∧
    pageItems1 ≠ [] := by
  decide

/-- Claim C2, amended: if the page reached by the loop fails to decode
(and the fresh page buffer's capacity is non-negative, so allocation does
not panic), the whole fetch aborts at that page with a decode error; the
elements accumulated from earlier pages remain in the destination. -/
theorem getItems_decode_error_aborts {α : Type} (server : Nat → PageFetch α)
    (path : String) (page : Nat) (acc : List α) (total limit : Int)
    (msg : String) (fuel : Nat)
    (hpage : server page = .page total limit (.decodeErr msg))
    (hcap : 0 ≤ currentPageSize total limit page) :
    getItemsLoop server path page acc (fuel + 1) =
      .ret acc (some (.decode path msg)) := by
  simp [getItemsLoop, hpage, not_lt.mpr hcap]

/-- Witness for getItems_decode_error_aborts at the concrete serverC2,
page 2, with page 1 already accumulated. -/
theorem getItems_decode_error_aborts_witness :
    getItemsLoop serverC2 "v1/disk" 2 pageItems1 3 =
      .ret pageItems1 (some (.decode "v1/disk" "bad json")) :=
  getItems_decode_error_aborts serverC2 "v1/disk" 2 pageItems1 25 10
    "bad json" 2 (by decide) (by decide)

/-- Claim C4, evaluation at the failing input: the polled job endpoint
returns a non-empty job record (a job in status "error" named
"provision"), but WaitTask passes its task variable to Get by value, so
json.Unmarshal rejects the non-pointer destination, Get fails, the loop
breaks, and WaitTask returns nil — no error mentioning the step name is
produced. -/
theorem waitTask_ignores_error_status :
    Get (waitTaskDoIn waitIn4 0) 0 3 =
      .ret "" (some (.decode "v1/job/42" "json: Unmarshal(non-pointer)")) 0 ∧
    WaitTask waitIn4 0 3 3 = .ret none 0 := by
  decide

/-- Claim C3, evaluation at the failing input: the exchange succeeds with
task id "42"; waiting on task 42 fails (here with the context's
cancellation error during the first poll sleep), yet Request and Delete
both return nil because manager.go lines 153 and 273 discard the result
of m.waitTasks. -/
theorem request_discards_task_wait_failure :
    Request (.ok "null") false doIn3 mkW3 0 5 5 5 = .ret none 100 ∧
    Delete false doIn3 mkW3 0 5 5 5 = .ret none 100 ∧
    waitTasks mkW3 "42" 0 5 5 =
      .ret (some (.cancelled "context canceled")) 100 := by
  decide

/-- Claim C10: a 409 body with an empty (non-nil) error_alias list, or
with a non-empty error_alias but an empty non_field_errors list, drives
Manager.do into an unguarded index-0 access: the model panics instead of
returning an error. -/
theorem do409_index_panics :
    doReq doInC10a 0 5 = .panicked 0 ∧ doReq doInC10b 0 5 = .panicked 0 := by
  decide

/-- Claim C6, counterexample: a 409 whose decoded body carries the
non-"object_locked" alias "quota_exceeded" but an empty non_field_errors
list does not fail with a business error — NonFieldErrors[0] panics
first. -/
theorem do409_nonlocked_alias_panics :
    doReq doIn6cex 0 5 = .panicked 0 := by
  decide

/-- Reading after one map assignment. -/
lemma getArg_setArg (acc : Arguments) (k v q : String) :
    getArg (setArg acc k v) q = if k = q then some v else getArg acc q := by
  induction acc with
  | nil => simp [setArg, getArg]
  | cons kv rest ih =>
    obtain ⟨k', v'⟩ := kv
    by_cases h1 : k' = k <;> by_cases h2 : k = q <;> by_cases h3 : k' = q <;>
      simp_all [setArg, getArg]

/-- Folding the keep-last-some function from an arbitrary accumulator. -/
lemma keepLast_foldl {β σ : Type} (g : β → Option σ) (l : List β) (a : Option σ) :
    l.foldl (fun r x => (g x).elim r some) a = (keepLast g l).elim a some := by
  induction l generalizing a with
  | nil => simp [keepLast]
  | cons x l ih =>
    simp only [keepLast, List.foldl_cons] at *
    rw [ih ((g x).elim a some), ih ((g x).elim none some)]
    cases l.foldl (fun r x => (g x).elim r some) none <;> cases g x <;> simp

/-- lastVal on a cons. -/
lemma lastVal_cons (kv : String × String) (b : Arguments) (k : String) :
    lastVal (kv :: b) k =
      (lastVal b k).elim (if kv.1 = k then some kv.2 else none) some := by
  simp only [lastVal, keepLast, List.foldl_cons]
  rw [keepLast_foldl]
  simp only [keepLast]
  cases b.foldl
      (fun r x => ((fun kv => if kv.1 = k then some kv.2 else none) x).elim r some)
      none <;> by_cases h : kv.1 = k <;> simp [h]

/-- lastOverride on a cons. -/
lemma lastOverride_cons (b : Arguments) (bs : List Arguments) (k : String) :
    lastOverride (b :: bs) k = (lastOverride bs k).elim (getArg b k) some := by
  simp only [lastOverride, keepLast, List.foldl_cons]
  rw [keepLast_foldl]
  simp only [keepLast]
  cases bs.foldl (fun r x => ((fun b => getArg b k) x).elim r some) none <;>
    cases h : getArg b k <;> simp [h]

/-- Reading the result of merging one extra set: the last binding in the
extra set wins, otherwise the original binding is kept. -/
lemma getArg_mergeOne (b : Arguments) (k : String) :
    ∀ acc : Arguments,
      getArg (mergeOne acc b) k = (lastVal b k).elim (getArg acc k) some := by
  induction b with
  | nil => intro acc; simp [mergeOne, lastVal, keepLast]
  | cons kv b ih =>
    intro acc
    simp only [mergeOne, List.foldl_cons] at *
    rw [ih (setArg acc kv.1 kv.2), lastVal_cons, getArg_setArg]
    cases lastVal b k <;> by_cases h : kv.1 = k <;> simp [h]

/-- A key absent from the key list reads as none. -/
lemma getArg_of_not_mem (b : Arguments) (k : String)
    (h : k ∉ b.map Prod.fst) : getArg b k = none := by
  induction b with
  | nil => simp [getArg]
  | cons kv rest ih =>
    simp only [List.map_cons, List.mem_cons] at h
    push_neg at h
    have hne : kv.1 ≠ k := fun hh => h.1 hh.symm
    simp [getArg, hne, ih h.2]

/-- With unique keys, the last binding in a set is its only binding. -/
lemma lastVal_eq_getArg (b : Arguments) (k : String)
    (h : (b.map Prod.fst).Nodup) : lastVal b k = getArg b k := by
  induction b with
  | nil => simp [lastVal, keepLast, getArg]
  | cons kv rest ih =>
    simp only [List.map_cons, List.nodup_cons] at h
    rw [lastVal_cons, ih h.2]
    by_cases hk : kv.1 = k
    · rw [getArg_of_not_mem rest k (hk ▸ h.1)]
      simp [getArg, hk]
    · cases hr : getArg rest k <;> simp [getArg, hk, hr]

/-- Claim C7: merging override sets is right-biased — after the merge,
every key present in some override set reads as its value in the last
override set containing it, and every key present in none of them keeps
its value from the original set.  The uniqueness hypothesis reflects that
Go maps cannot hold duplicate keys. -/
theorem merge_right_biased (A : Arguments) (Bs : List Arguments) (k : String)
    (h : ∀ B ∈ Bs, (B.map Prod.fst).Nodup) :
    getArg (merge A Bs) k = (lastOverride Bs k).elim (getArg A k) some := by
  induction Bs generalizing A with
  | nil => simp [merge, lastOverride, keepLast]
  | cons B Bs ih =>
    simp only [merge, List.foldl_cons] at *
    rw [ih (mergeOne A B) (fun b hb => h b (List.mem_cons_of_mem _ hb)),
      getArg_mergeOne, lastVal_eq_getArg B k (h B (List.mem_cons_self _ _)),
      lastOverride_cons]
    cases lastOverride Bs k <;> cases hB : getArg B k <;> simp [hB]

/-- Witness for merge_right_biased: key "b" takes the value of the last
override set containing it, key "a" keeps its original value. -/
theorem merge_right_biased_witness :
    (∀ B ∈ [argB1, argB2], (B.map Prod.fst).Nodup) ∧
    getArg (merge argA [argB1, argB2]) "b" = some "4" ∧
    getArg (merge argA [argB1, argB2]) "a" = some "1" :=
  ⟨by decide,
    (merge_right_biased argA [argB1, argB2] "b" (by decide)).trans (by decide),
    (merge_right_biased argA [argB1, argB2] "a" (by decide)).trans (by decide)⟩

/-- Claim C5: when no page GET fails in Manager.do (a failing GET makes
GetItems return nil early, see getItems_swallows_page_error), a run of
the accumulation loop that returns without error ends exactly at a page
where the accumulated length equals that page's declared total — the
loop has no page-count exit — and the capacity computed for each page's
buffer is min(total - limit*(page-1), limit). -/
theorem getItems_stops_exactly_at_total {α : Type} (server : Nat → PageFetch α)
    (path : String) (fuel page : Nat) (acc out : List α)
    (hne : ∀ p e, server p ≠ .derr e)
    (hrun : getItemsLoop server path page acc fuel = .ret out none) :
    (∃ p total limit xs, server p = .page total limit (.ok xs) ∧
        (out.length : Int) = total) ∧
    (∀ t l q, currentPageSize t l q = min (t - l * ((q : Int) - 1)) l) := by
  refine ⟨?_, fun t l q => rfl⟩
  induction fuel generalizing page acc with
  | zero => simp [getItemsLoop] at hrun
  | succ n ih =>
    rw [getItemsLoop] at hrun
    cases hs : server page with
    | derr e => exact absurd hs (hne page e)
    | page total limit items =>
      simp only [hs] at hrun
      by_cases hcap : currentPageSize total limit page < 0
      · rw [if_pos hcap] at hrun; exact absurd hrun (by simp)
      · rw [if_neg hcap] at hrun
        cases items with
        | decodeErr msg => simp at hrun
        | ok xs =>
          simp only at hrun
          by_cases hlen : (((acc ++ xs).length : Nat) : Int) = total
          · rw [if_pos hlen] at hrun
            obtain ⟨rfl, -⟩ : acc ++ xs = out ∧ True := by
              cases hrun; exact ⟨rfl, trivial⟩
            exact ⟨page, total, limit, xs, hs, hlen⟩
          · rw [if_neg hlen] at hrun
            exact ih (page + 1) (acc ++ xs) hrun

/-- Witness for getItems_stops_exactly_at_total on the synthetic
25-element, limit-10, three-page server. -/
theorem getItems_stops_exactly_at_total_witness :
    (∃ p total limit xs, server25 p = .page total limit (.ok xs) ∧
        (((pageItems1 ++ pageItems2 ++ pageItems3).length : Nat) : Int) = total) ∧
    (∀ t l q, currentPageSize t l q = min (t - l * ((q : Int) - 1)) l) :=
  getItems_stops_exactly_at_total server25 "v1/network" 5 1 []
    (pageItems1 ++ pageItems2 ++ pageItems3)
    (by intro p e; simp only [server25]; split <;> (try split) <;> simp)
    (by decide)

/-- One iteration of the do-loop on a 409 whose decoded state carries a
non-"object_locked" alias and a non-empty non_field_errors list: an
immediate business-error return at the iteration's entry time (no
sleep). -/
lemma doLoop_business_step (I : DoIn) (t0 attempt t fuel : Nat)
    (lo : ObjectLocked) (body tids : String) (rf : Bool) (p : LockedPatch)
    (a d : String) (arest drest : List String)
    (h1 : I.attempts attempt = .hresp 409 body tids rf)
    (h2 : I.parse409 body = some p)
    (h3 : (applyPatch p lo).ErrorAlias = some (a :: arest))
    (h4 : (applyPatch p lo).NonFieldErrors = some (d :: drest))
    (h5 : a ≠ "object_locked") :
    doLoop I t0 attempt t lo (fuel + 1) =
      .ret "" (some (.business d (marshalDetails (applyPatch p lo).Details))) t := by
  rw [doLoop]
  simp only [h1, h2, h3, h4]
  simp [h5]

/-- One iteration of the do-loop on a well-formed locked 409 with no
context: sleep the retry interval and continue, provided the lock
timeout is not yet exceeded. -/
lemma doLoop_locked_step (I : DoIn) (t0 attempt t fuel : Nat)
    (lo : ObjectLocked) (h : lockedAt I attempt) (hc : I.ctx = none)
    (hto : t + RetryTime - t0 ≤ LockTimeout * 1000) :
    ∃ lo', doLoop I t0 attempt t lo (fuel + 1) =
      doLoop I t0 (attempt + 1) (t + RetryTime) lo' fuel := by
  obtain ⟨body, tids, rf, p, arest, d, drest, h1, h2, h3, h4⟩ := h
  have hA : (applyPatch p lo).ErrorAlias = some ("object_locked" :: arest) := by
    simp [applyPatch, h3, FieldPatch.apply]
  have hN : (applyPatch p lo).NonFieldErrors = some (d :: drest) := by
    simp [applyPatch, h4, FieldPatch.apply]
  refine ⟨applyPatch p lo, ?_⟩
  rw [doLoop]
  simp only [h1, h2, hA, hN]
  simp [sleep, hc, Nat.not_lt.mpr hto]

/-- One iteration of the do-loop on a well-formed locked 409 under a
context that is cancelled before the retry sleep ends: the loop returns
the context's cancellation error at the cancellation time. -/
lemma doLoop_locked_cancel (I : DoIn) (t0 attempt t fuel : Nat)
    (lo : ObjectLocked) (ctx : Ctx) (c : Nat) (h : lockedAt I attempt)
    (hc : I.ctx = some ctx) (hca : ctx.cancelAt = some c)
    (hlt : c < t + RetryTime) :
    doLoop I t0 attempt t lo (fuel + 1) =
      .ret "" (some (.cancelled ctx.errMsg)) (max c t) := by
  obtain ⟨body, tids, rf, p, arest, d, drest, h1, h2, h3, h4⟩ := h
  have hA : (applyPatch p lo).ErrorAlias = some ("object_locked" :: arest) := by
    simp [applyPatch, h3, FieldPatch.apply]
  have hN : (applyPatch p lo).NonFieldErrors = some (d :: drest) := by
    simp [applyPatch, h4, FieldPatch.apply]
  rw [doLoop]
  simp only [h1, h2, hA, hN]
  simp [sleep, hc, SleepWithContext, hca, hlt]

/-- A run of k well-formed locked 409s followed by a 200 with empty body:
the do-loop succeeds after exactly k retry sleeps. -/
lemma doLoop_locked_success :
    ∀ (k : Nat) (I : DoIn) (t0 a t fuel : Nat) (lo : ObjectLocked)
      (tids : String),
      (∀ i, i < k → lockedAt I (a + i)) → I.ctx = none → t0 ≤ t →
      (t - t0) + RetryTime * k ≤ LockTimeout * 1000 →
      I.attempts (a + k) = .hresp 200 "" tids false →
      k < fuel →
      doLoop I t0 a t lo fuel = .ret tids none (t + RetryTime * k) := by
  intro k
  induction k with
  | zero =>
    intro I t0 a t fuel lo tids hlock hc hle hbound hattempt hfuel
    obtain ⟨f, rfl⟩ : ∃ f, fuel = f + 1 := ⟨fuel - 1, by omega⟩
    rw [doLoop]
    simp only [Nat.add_zero] at hattempt
    simp [hattempt, doFinish]
  | succ k ih =>
    intro I t0 a t fuel lo tids hlock hc hle hbound hattempt hfuel
    obtain ⟨f, rfl⟩ : ∃ f, fuel = f + 1 := ⟨fuel - 1, by omega⟩
    have hto : t + RetryTime - t0 ≤ LockTimeout * 1000 := by
      simp only [RetryTime, LockTimeout] at hbound ⊢; omega
    obtain ⟨lo', hstep⟩ :=
      doLoop_locked_step I t0 a t f lo (hlock 0 (by omega)) hc hto
    have hres := ih I t0 (a + 1) (t + RetryTime) f lo' tids
      (fun i hi => by
        have hx := hlock (i + 1) (by omega)
        rwa [show a + (i + 1) = a + 1 + i by omega] at hx)
      hc (by omega)
      (by simp only [RetryTime, LockTimeout] at hbound ⊢; omega)
      (by rwa [show a + 1 + k = a + (k + 1) by omega])
      (by omega)
    rw [hstep, hres,
      show t + RetryTime + RetryTime * k = t + RetryTime * (k + 1) by
        simp only [RetryTime]; omega]

/-- Skipping k well-formed locked 409s under no context advances the
do-loop k attempts and k retry sleeps. -/
lemma doLoop_locked_skip :
    ∀ (k : Nat) (I : DoIn) (t0 a t fuel : Nat) (lo : ObjectLocked),
      (∀ i, i < k → lockedAt I (a + i)) → I.ctx = none → t0 ≤ t →
      (t - t0) + RetryTime * k ≤ LockTimeout * 1000 →
      ∃ lo', doLoop I t0 a t lo (k + fuel) =
        doLoop I t0 (a + k) (t + RetryTime * k) lo' fuel := by
  intro k
  induction k with
  | zero =>
    intro I t0 a t fuel lo _ _ _ _
    exact ⟨lo, by simp⟩
  | succ k ih =>
    intro I t0 a t fuel lo hlock hc hle hbound
    have hto : t + RetryTime - t0 ≤ LockTimeout * 1000 := by
      simp only [RetryTime, LockTimeout] at hbound ⊢; omega
    rw [show k + 1 + fuel = (k + fuel) + 1 by omega]
    obtain ⟨lo1, hstep⟩ :=
      doLoop_locked_step I t0 a t (k + fuel) lo (hlock 0 (by omega)) hc hto
    obtain ⟨lo2, hrest⟩ := ih I t0 (a + 1) (t + RetryTime) fuel lo1
      (fun i hi => by
        have hx := hlock (i + 1) (by omega)
        rwa [show a + (i + 1) = a + 1 + i by omega] at hx)
      hc (by omega)
      (by simp only [RetryTime, LockTimeout] at hbound ⊢; omega)
    refine ⟨lo2, ?_⟩
    rw [hstep, hrest,
      show a + 1 + k = a + (k + 1) by omega,
      show t + RetryTime + RetryTime * k = t + RetryTime * (k + 1) by
        simp only [RetryTime]; omega]

/-- Claim C6, amended: for a 409 whose decoded body carries a
non-"object_locked" alias AND a non-empty non_field_errors list, the
executor fails immediately with the business error, performing no retry
sleep (the return time equals the iteration's entry time); a 409
carrying alias "object_locked" (with a non-empty non_field_errors list)
is instead retried after a fixed 500 ms sleep until success or, when the
lock never clears, until the 1200 s lock timeout.  Without the
non-empty-list proviso the indexing panics, see
do409_nonlocked_alias_panics. -/
theorem do409_alias_dispatch :
    (∀ (I : DoIn) (t0 attempt t fuel : Nat) (lo : ObjectLocked)
        (body tids : String) (rf : Bool) (p : LockedPatch) (a d : String)
        (arest drest : List String),
        I.attempts attempt = .hresp 409 body tids rf →
        I.parse409 body = some p →
        (applyPatch p lo).ErrorAlias = some (a :: arest) →
        (applyPatch p lo).NonFieldErrors = some (d :: drest) →
        a ≠ "object_locked" →
        doLoop I t0 attempt t lo (fuel + 1) =
          .ret "" (some (.business d (marshalDetails (applyPatch p lo).Details))) t) ∧
    (∀ (I : DoIn) (t0 k fuel : Nat) (tids : String),
        (∀ i, i < k → lockedAt I i) → I.ctx = none →
        RetryTime * k ≤ LockTimeout * 1000 →
        I.attempts k = .hresp 200 "" tids false → k < fuel →
        doReq I t0 fuel = .ret tids none (t0 + RetryTime * k)) ∧
    (∀ (I : DoIn) (t0 f : Nat),
        (∀ i, lockedAt I i) → I.ctx = none →
        doReq I t0 (2401 + f) = .ret "" (some .lockTimeout) (t0 + 1200500)) := by
  refine ⟨?_, ?_, ?_⟩
  · intro I t0 attempt t fuel lo body tids rf p a d arest drest h1 h2 h3 h4 h5
    exact doLoop_business_step I t0 attempt t fuel lo body tids rf p a d
      arest drest h1 h2 h3 h4 h5
  · intro I t0 k fuel tids hlock hc hbound hattempt hfuel
    have h := doLoop_locked_success k I t0 0 t0 fuel ⟨none, none, none⟩ tids
      (fun i hi => by rw [Nat.zero_add]; exact hlock i hi)
      hc (Nat.le_refl t0)
      (by simp only [RetryTime, LockTimeout] at hbound ⊢; omega)
      (by rwa [Nat.zero_add]) hfuel
    exact h
  · intro I t0 f hlock hc
    obtain ⟨lo', hskip⟩ :=
      doLoop_locked_skip 2400 I t0 0 t0 (f + 1) ⟨none, none, none⟩
        (fun i _ => by rw [Nat.zero_add]; exact hlock i)
        hc (Nat.le_refl t0)
        (by simp only [RetryTime, LockTimeout]; omega)
    show doLoop I t0 0 t0 ⟨none, none, none⟩ (2401 + f) = _
    rw [show 2401 + f = 2400 + (f + 1) by omega, hskip, Nat.zero_add]
    obtain ⟨body, tids, rf, p, arest, d, drest, h1, h2, h3, h4⟩ := hlock 2400
    have hA : (applyPatch p lo').ErrorAlias = some ("object_locked" :: arest) := by
      simp [applyPatch, h3, FieldPatch.apply]
    have hN : (applyPatch p lo').NonFieldErrors = some (d :: drest) := by
      simp [applyPatch, h4, FieldPatch.apply]
    rw [doLoop]
    simp only [h1, h2, hA, hN]
    simp only [sleep, hc]
    simp [RetryTime, LockTimeout, Nat.add_sub_cancel_left]
    intro hcontra
    omega

/-- Witness for do409_alias_dispatch: the "quota_exceeded" conflict fails
immediately at time 0; two locked 409s then a success resolve after
exactly two 500 ms sleeps; a permanently locked object times out with
elapsed time 1200.5 s. -/
theorem do409_alias_dispatch_witness :
    doLoop doIn6bus 0 0 0 loZero 1 =
      .ret "" (some (.business "limit reached" "d1")) 0 ∧
    doReq doIn6lock 0 10 = .ret "tid7" none 1000 ∧
    doReq doIn6always 0 2500 = .ret "" (some .lockTimeout) 1200500 := by
  refine ⟨?_, ?_, ?_⟩
  · exact (do409_alias_dispatch.1 doIn6bus 0 0 0 0 loZero "conflictbody" ""
      false ⟨.val ["d1"], .val ["quota_exceeded"], .val ["limit reached"]⟩
      "quota_exceeded" "limit reached" [] [] (by decide) (by decide)
      (by decide) (by decide) (by decide)).trans (by decide)
  · exact (do409_alias_dispatch.2.1 doIn6lock 0 2 10 "tid7"
      (fun i hi =>
        ⟨"lockedbody", "", false,
          ⟨.val ["lock info"], .val ["object_locked"], .val ["resource is locked"]⟩,
          [], "resource is locked", [],
          by simp [doIn6lock, mkDoIn, hi], by decide, rfl, rfl⟩)
      rfl (by decide) (by decide) (by decide)).trans (by decide)
  · exact (by
      have h := do409_alias_dispatch.2.2 doIn6always 0 99
        (fun i =>
          ⟨"lockedbody", "", false,
            ⟨.val ["lock info"], .val ["object_locked"], .val ["resource is locked"]⟩,
            [], "resource is locked", [],
            by simp [doIn6always, mkDoIn], by decide, rfl, rfl⟩)
        rfl
      simpa using h)

/-- Claim C8: a cancellation that is pending or arrives during a sleep
makes SleepWithContext return the scope's cancellation error at the
cancellation time, strictly before the backoff interval would end; and
both enclosing operations — the lock-retry sleep of Manager.do and the
task-poll sleep of Manager.WaitTask — abort with that same error. -/
theorem sleep_cancellation_aborts :
    (∀ (ctx : Ctx) (c t d : Nat), ctx.cancelAt = some c → c < t + d → 0 < d →
        SleepWithContext ctx t d = (max c t, some (.cancelled ctx.errMsg)) ∧
          max c t < t + d) ∧
    (∀ (I : DoIn) (t0 attempt t fuel : Nat) (lo : ObjectLocked) (ctx : Ctx)
        (c : Nat),
        lockedAt I attempt → I.ctx = some ctx → ctx.cancelAt = some c →
        c < t + RetryTime →
        doLoop I t0 attempt t lo (fuel + 1) =
          .ret "" (some (.cancelled ctx.errMsg)) (max c t)) ∧
    (∀ (W : WaitIn) (t0 i t df fuel : Nat) (task : Task) (ctx : Ctx) (c : Nat),
        W.ctx = some ctx → ctx.cancelAt = some c → c < t + RetryTime →
        W.polls i 0 = .hresp 200 "" "" false →
        task.Status ≠ "error" →
        waitTaskLoop W t0 (df + 1) i task t (fuel + 1) =
          .ret (some (.cancelled ctx.errMsg)) (max c t)) := by
  refine ⟨?_, ?_, ?_⟩
  · intro ctx c t d hca hlt hd
    refine ⟨by simp [SleepWithContext, hca, hlt], ?_⟩
    exact Nat.max_lt.mpr ⟨hlt, by omega⟩
  · intro I t0 attempt t fuel lo ctx c h hc hca hlt
    exact doLoop_locked_cancel I t0 attempt t fuel lo ctx c h hc hca hlt
  · intro W t0 i t df fuel task ctx c hc hca hlt hpoll hst
    have hG : Get (waitTaskDoIn W i) t (df + 1) = .ret "" none t := by
      rw [Get, doReq, doLoop]
      simp [waitTaskDoIn, hpoll, doFinish]
    rw [waitTaskLoop]
    simp only [hG]
    simp [hst, sleep, hc, SleepWithContext, hca, hlt]

/-- Witness for sleep_cancellation_aborts: under a context cancelled at
100 ms, a 500 ms sleep started at time 0 returns the cancellation at
100 ms; the lock retry of doIn8 and the task poll of waitIn8 both abort
at 100 ms with the cancellation error. -/
theorem sleep_cancellation_aborts_witness :
    SleepWithContext ctx100 0 500 = (100, some (.cancelled "context canceled")) ∧
    doLoop doIn8 0 0 0 loZero 1 =
      .ret "" (some (.cancelled "context canceled")) 100 ∧
    waitTaskLoop waitIn8 0 3 0 (Task.mk "" "") 0 1 =
      .ret (some (.cancelled "context canceled")) 100 := by
  refine ⟨?_, ?_, ?_⟩
  · exact ((sleep_cancellation_aborts.1 ctx100 100 0 500 rfl (by decide)
      (by decide)).1).trans (by decide)
  · exact (sleep_cancellation_aborts.2.1 doIn8 0 0 0 0 loZero ctx100 100
      ⟨"lockedbody", "", false,
        ⟨.val ["lock info"], .val ["object_locked"], .val ["resource is locked"]⟩,
        [], "resource is locked", [], by decide, by decide, rfl, rfl⟩
      (by decide) (by decide) (by decide)).trans (by decide)
  · exact (sleep_cancellation_aborts.2.2 waitIn8 0 0 0 2 0 (Task.mk "" "")
      ctx100 100 (by decide) (by decide) (by decide) (by decide)
      (by decide)).trans (by decide)

end Bcc
